import Mathlib

/-!
Verification of the tailing + aggregation + timeline engine shared by
`tui_monitor.py` and `textual_monitor.py`.  The two files duplicate the same
`FileTail` / `MetricsAgg` classes and the ASCII timeline renderer; the
definitions below are a shallow embedding of that code.

Modelling conventions:
* Machine integers are `Nat`/`Int`; timestamps are epoch seconds as `Int`
  (the records carry second-resolution timestamps).
* Python dicts (`bucket_map`, `positions`) are association lists in insertion
  order; `defaultdict(lambda: {"success": 0, "fail": 0})` maps are total
  functions `String → Nat × Nat` defaulting to `(0, 0)`.
* `collections.deque` (`timeline`) is a `List` whose head is the oldest entry:
  `append` adds at the right end, `popleft` drops the head.
* The result of `json.loads` on one metrics line is modelled as
  `Option Record`: `none` when the line is not valid JSON (the
  `except Exception: continue` path), `some obj` otherwise.
* File bytes are modelled as `List Char` (the monitors decode with
  `errors="replace"`, so every byte yields a character).
-/

/-- A JSON scalar as produced by `json.loads` for the fields the monitors
consume (`success`, `instance_id`, `batch_region`). -/
inductive JVal where
  | jnull : JVal
  | jbool : Bool → JVal
  | jnum : Int → JVal
  | jstr : String → JVal
deriving DecidableEq, Repr

/-- Python truthiness `bool(v)` for the modelled JSON scalars. -/
def truthy : JVal → Bool
  | .jnull => false
  | .jbool b => b
  | .jnum n => n != 0
  | .jstr s => s != ""

/-- Python `str(v)` for the modelled JSON scalars. -/
def pyStr : JVal → String
  | .jnull => "None"
  | .jbool true => "True"
  | .jbool false => "False"
  | .jnum n => toString n
  | .jstr s => s

/-- One successfully parsed metrics line (`obj = json.loads(line)`), restricted
to the fields the aggregator reads.  `none` in a field models a key that is
absent from the object (`obj.get(k)` returns Python `None`).  `ts` holds the
epoch seconds computed by `parse_ts` when the `ts` field is a truthy string in
`YYYY-MM-DDTHH:MM:SS` form; it is `none` when `parse_ts` would fall back to
`time.time()` (missing/falsy/unparsable timestamp). -/
structure Record where
  success : Option JVal
  instance_id : Option JVal
  batch_region : Option JVal
  ts : Option Int
deriving DecidableEq, Repr

/-- Models `str(obj.get(k) or "unknown")`: a missing, null or otherwise falsy
value falls back to `"unknown"`. -/
def pyOrUnknown : Option JVal → String
  | some v => if truthy v then pyStr v else "unknown"
  | none => "unknown"

/-- A timeline/bucket-map entry `(bucket_start_epoch, success_count, fail_count)`. -/
abbrev Bucket := Int × Nat × Nat

/-- `b in bucket_map` / `bucket_map[b]` lookup on the insertion-ordered dict. -/
def mapLookup : List Bucket → Int → Option (Nat × Nat)
  | [], _ => none
  | e :: rest, k => if e.1 = k then some e.2 else mapLookup rest k

/-- `self.bucket_map.pop(old_b, None)`: removes the entry with the given key. -/
def mapPop : List Bucket → Int → List Bucket
  | [], _ => []
  | e :: rest, k => if e.1 = k then rest else e :: mapPop rest k

/-- `self.bucket_map[b][0 if ok else 1] += 1`: bumps the success or fail count
of the entry with key `k`. -/
def mapBump : List Bucket → Int → Bool → List Bucket
  | [], _, _ => []
  | e :: rest, k, ok =>
    if e.1 = k then
      (e.1, (if ok then e.2.1 + 1 else e.2.1), (if ok then e.2.2 else e.2.2 + 1)) :: rest
    else e :: mapBump rest k ok

/-- The `for idx in range(len(self.timeline)): if self.timeline[idx][0] == b:
self.timeline[idx] = nv; break` loop: replaces the first entry whose start is
`b`. -/
def replaceFirst : List Bucket → Int → Bucket → List Bucket
  | [], _, _ => []
  | e :: rest, b, nv => if e.1 = b then nv :: rest else e :: replaceFirst rest b nv

/-- The aggregator state of `MetricsAgg` (both monitor files), minus the
embedded `FileTail` (polling is modelled separately; `update` receives the
polled lines as an argument). -/
structure MetricsAgg where
  success : Nat
  fail : Nat
  per_region : String → Nat × Nat
  per_instance : String → Nat × Nat
  bucket_seconds : Nat
  max_buckets : Nat
  timeline : List Bucket
  bucket_map : List Bucket

/-- `MetricsAgg.__init__`: counters start at zero, the width and the bound are
clamped with `max(1, int(·))`. -/
def MetricsAgg.init (bucket_seconds max_buckets : Int) : MetricsAgg :=
  { success := 0
    fail := 0
    per_region := fun _ => (0, 0)
    per_instance := fun _ => (0, 0)
    bucket_seconds := (max 1 bucket_seconds).toNat
    max_buckets := (max 1 max_buckets).toNat
    timeline := []
    bucket_map := [] }

/-- `MetricsAgg._bucket_start`: `int(ts - (ts % self.bucket_seconds))`.
Python `%` with a positive divisor returns a value in `[0, w)`, matching
`Int.emod`. -/
def bucket_start (ts : Int) (w : Nat) : Int := ts - ts % (w : Int)

/-- The `while len(self.timeline) > self.max_buckets: popleft / pop` eviction
loop of `_ensure_bucket`, acting on the (timeline, bucket_map) pair. -/
def evictFrom (max_b : Nat) : List Bucket → List Bucket → List Bucket × List Bucket
  | [], bm => ([], bm)
  | e :: rest, bm =>
    if max_b < (e :: rest).length then evictFrom max_b rest (mapPop bm e.1)
    else (e :: rest, bm)

/-- `MetricsAgg._ensure_bucket`: if the bucket is new, record it in the dict
and append it to the deque, then evict oldest buckets down to `max_buckets`. -/
def MetricsAgg.ensure_bucket (st : MetricsAgg) (b : Int) : MetricsAgg :=
  if (mapLookup st.bucket_map b).isSome then st
  else
    let p := evictFrom st.max_buckets (st.timeline ++ [(b, 0, 0)]) (st.bucket_map ++ [(b, 0, 0)])
    { st with timeline := p.1, bucket_map := p.2 }

/-- The `while b < target_b: b += self.bucket_seconds; self._ensure_bucket(b)`
loop of `ensure_buckets_to`.  `_ensure_bucket` never changes
`bucket_seconds`, so the step width is passed once.  The loop body is guarded
by `0 < w` to make the function total; every caller in the program has
`bucket_seconds ≥ 1` because of the `max(1, ·)` clamping. -/
def ensure_buckets_loop (w : Nat) (st : MetricsAgg) (target : Int) (b : Int) : MetricsAgg :=
  if 0 < w ∧ b < target then
    ensure_buckets_loop w (st.ensure_bucket (b + (w : Int))) target (b + (w : Int))
  else st
termination_by (target - b).toNat
decreasing_by omega

/-- `MetricsAgg.ensure_buckets_to` (the spec's `backfill_to`): on an empty
timeline create the single bucket containing `now`; otherwise walk from the
last bucket start to the bucket start of `now` in `bucket_seconds` steps. -/
def MetricsAgg.ensure_buckets_to (st : MetricsAgg) (now : Int) : MetricsAgg :=
  match st.timeline.getLast? with
  | none => st.ensure_bucket (bucket_start now st.bucket_seconds)
  | some e => ensure_buckets_loop st.bucket_seconds st (bucket_start now st.bucket_seconds) e.1

/-- `self.per_instance[inst]["success"] += 1` (and the `fail` analogue) on the
defaultdict modelled as a total function. -/
def catBump (m : String → Nat × Nat) (k : String) (ok : Bool) : String → Nat × Nat :=
  fun q =>
    if q = k then (if ok then ((m k).1 + 1, (m k).2) else ((m k).1, (m k).2 + 1))
    else m q

/-- The body of the `for _path, line in self.tail.read_new_lines()` loop of
`MetricsAgg.update` for one line.  A line that fails `json.loads` (`none`) is
skipped (`continue`).  `now` is the `time.time()` fallback used by `parse_ts`
when the record carries no parsable timestamp. -/
def ingest_line (st : MetricsAgg) (now : Int) (line : Option Record) : MetricsAgg :=
  match line with
  | none => st
  | some obj =>
    let ok := (obj.success.map truthy).getD false
    let st1 := { st with
      success := st.success + (if ok then 1 else 0)
      fail := st.fail + (if ok then 0 else 1) }
    let inst := pyOrUnknown obj.instance_id
    let reg := pyOrUnknown obj.batch_region
    let st2 := { st1 with
      per_instance := catBump st1.per_instance inst ok
      per_region := catBump st1.per_region reg ok }
    let ts := obj.ts.getD now
    let b := bucket_start ts st2.bucket_seconds
    let st3 := st2.ensure_bucket b
    let st4 := { st3 with bucket_map := mapBump st3.bucket_map b ok }
    let sf := (mapLookup st4.bucket_map b).getD (0, 0)
    { st4 with timeline := replaceFirst st4.timeline b (b, sf.1, sf.2) }

/-- `MetricsAgg.update` (the spec's `ingest`), with the freshly polled lines —
each already passed through `json.loads` — supplied as an argument. -/
def MetricsAgg.update (st : MetricsAgg) (now : Int) (lines : List (Option Record)) : MetricsAgg :=
  lines.foldl (fun s l => ingest_line s now l) st

/-- `MetricsAgg.set_bucket_seconds` (the spec's `set_bucket_width`): clamp and
store the new width, clear the deque and the dict, keep the cumulative
counters. -/
def MetricsAgg.set_bucket_seconds (st : MetricsAgg) (sec : Int) : MetricsAgg :=
  { st with
    bucket_seconds := (max 1 sec).toNat
    timeline := []
    bucket_map := [] }

/-- `FileTail` state: the `positions` dict mapping a path to the byte offset
already consumed (insertion-ordered association list). -/
structure FileTail where
  positions : List (String × Nat)
deriving DecidableEq, Repr

/-- `self.positions.get(path, ...)` lookup. -/
def posLookup : List (String × Nat) → String → Option Nat
  | [], _ => none
  | e :: rest, p => if e.1 = p then some e.2 else posLookup rest p

/-- `self.positions[path] = v`: replace an existing entry or append a new one. -/
def posInsert : List (String × Nat) → String → Nat → List (String × Nat)
  | [], p, v => [(p, v)]
  | e :: rest, p, v => if e.1 = p then (p, v) :: rest else e :: posInsert rest p v

/-- `self.positions.pop(path, None)`. -/
def posPop : List (String × Nat) → String → List (String × Nat)
  | [], _ => []
  | e :: rest, p => if e.1 = p then rest else e :: posPop rest p

/-- Python `str.splitlines()` on the modelled byte string: splits on `\r\n`,
`\n` and `\r`, with no trailing empty line. -/
def pySplitlines : List Char → List (List Char)
  | [] => []
  | '\r' :: '\n' :: rest => [] :: pySplitlines rest
  | '\n' :: rest => [] :: pySplitlines rest
  | '\r' :: rest => [] :: pySplitlines rest
  | c :: rest =>
    match pySplitlines rest with
    | [] => [[c]]
    | l :: ls => (c :: l) :: ls

/-- The body of the `for path in files` loop of `FileTail.read_new_lines` for
one globbed path.  `content` is the file's current bytes; `none` models the
file vanishing between `glob` and `getsize` (`FileNotFoundError`). -/
def read_one_file (st : FileTail) (path : String) (content : Option (List Char)) :
    FileTail × List (String × List Char) :=
  match content with
  | none => (⟨posPop st.positions path⟩, [])
  | some data =>
    let size := data.length
    let pos0 := (posLookup st.positions path).getD 0
    let pos := if size < pos0 then 0 else pos0
    if size > pos then
      let chunk := data.drop pos
      (⟨posInsert st.positions path (pos + chunk.length)⟩,
       (pySplitlines chunk).map (fun ln => (path, ln)))
    else
      (⟨posInsert st.positions path size⟩, [])

/-- `FileTail.read_new_lines`: fold the per-path body over the glob result
(already path-sorted), accumulating the newly appended lines. -/
def FileTail.read_new_lines (st : FileTail) (files : List (String × Option (List Char))) :
    FileTail × List (String × List Char) :=
  files.foldl
    (fun acc pc =>
      let r := read_one_file acc.1 pc.1 pc.2
      (r.1, acc.2 ++ r.2))
    (st, [])

/-- `chars = " .:-=+*#%@"`: the 10-level density glyph ramp of the ASCII
timeline renderer. -/
def rampChars : List Char := [' ', '.', ':', '-', '=', '+', '*', '#', '%', '@']

/-- `data = data[-max(1, width - 2):]`: the visible window of the timeline. -/
def visibleData (tl : List Bucket) (width : Nat) : List Bucket :=
  tl.drop (tl.length - max 1 (width - 2))

/-- `maxv = max(1, max(s + f for _, s, f in data))`. -/
def maxTotal (data : List Bucket) : Nat :=
  max 1 (data.foldl (fun a e => max a (e.2.1 + e.2.2)) 0)

/-- The success/density row of `render_timeline_ascii`:
`'S' if s and not f else chars[idx]` with
`idx = int((len(chars) - 1) * (v / maxv))`, computed here in exact integer
arithmetic (`v ≤ maxv`, so the float product is the exact rational and `int`
is its floor). -/
def sLineOf (data : List Bucket) (maxv : Nat) : List Char :=
  data.map (fun e =>
    if e.2.1 ≠ 0 ∧ e.2.2 = 0 then 'S'
    else rampChars.getD ((rampChars.length - 1) * (e.2.1 + e.2.2) / maxv) ' ')

/-- The failure row of `render_timeline_ascii`: `'F' if f and not s else ' '`. -/
def fLineOf (data : List Bucket) : List Char :=
  data.map (fun e => if e.2.2 ≠ 0 ∧ e.2.1 = 0 then 'F' else ' ')

/-- Python `str.ljust(n)`: pad on the right with spaces up to length `n`. -/
def ljust (s : String) (n : Nat) : String :=
  s ++ String.mk (List.replicate (n - s.length) ' ')

/-- `render_timeline_ascii` of `textual_monitor.py` (the curses front-end's
`_draw_timeline_ascii` draws the same two rows directly into the pane). -/
def render_timeline_ascii (tl : List Bucket) (width height : Nat) : String :=
  if tl = [] then "(no data)"
  else
    let data := visibleData tl width
    let maxv := maxTotal data
    let out := [ljust (String.mk (sLineOf data maxv)) (width - 1)]
      ++ (if 2 ≤ height then [ljust (String.mk (fLineOf data)) (width - 1)] else [])
    String.intercalate "\n" out

/-- Aggregator states reachable by any sequence of the aggregator's
operations: construction, `update` (ingest), `ensure_buckets_to` (backfill)
and `set_bucket_seconds` (bucket-width change). -/
inductive Reachable : MetricsAgg → Prop where
  | init (bs mb : Int) : Reachable (MetricsAgg.init bs mb)
  | ingest {s : MetricsAgg} (now : Int) (lines : List (Option Record)) :
      Reachable s → Reachable (s.update now lines)
  | backfill {s : MetricsAgg} (now : Int) :
      Reachable s → Reachable (s.ensure_buckets_to now)
  | set_width {s : MetricsAgg} (sec : Int) :
      Reachable s → Reachable (s.set_bucket_seconds sec)

/-- Aggregator states reachable by ingest and backfill calls alone (the
operation set quantified over by the bucket-contiguity claim). -/
inductive ReachableIB : MetricsAgg → Prop where
  | init (bs mb : Int) : ReachableIB (MetricsAgg.init bs mb)
  | ingest {s : MetricsAgg} (now : Int) (lines : List (Option Record)) :
      ReachableIB s → ReachableIB (s.update now lines)
  | backfill {s : MetricsAgg} (now : Int) :
      ReachableIB s → ReachableIB (s.ensure_buckets_to now)

/-- Aggregator states reachable by backfill calls alone. -/
inductive ReachableBF : MetricsAgg → Prop where
  | init (bs mb : Int) : ReachableBF (MetricsAgg.init bs mb)
  | backfill {s : MetricsAgg} (now : Int) :
      ReachableBF s → ReachableBF (s.ensure_buckets_to now)

/-- Multi-step relation: `Steps s t` iff `t` results from `s` by some sequence
of `update` / `ensure_buckets_to` / `set_bucket_seconds` calls. -/
inductive Steps : MetricsAgg → MetricsAgg → Prop where
  | refl (s : MetricsAgg) : Steps s s
  | ingest {s t : MetricsAgg} (now : Int) (lines : List (Option Record)) :
      Steps s t → Steps s (t.update now lines)
  | backfill {s t : MetricsAgg} (now : Int) :
      Steps s t → Steps s (t.ensure_buckets_to now)
  | set_width {s t : MetricsAgg} (sec : Int) :
      Steps s t → Steps s (t.set_bucket_seconds sec)

/-- The empty buckets `(L + width, 0, 0), …, (L + k*width, 0, 0)` that a
backfill from last bucket start `L` over `k` idle widths is expected to
append. -/
def newBuckets (L : Int) (w : Nat) (k : Nat) : List Bucket :=
  (List.range k).map (fun (j : Nat) => (L + ((j : Int) + 1) * (w : Int), 0, 0))

/-- A concrete well-formed metrics record with timestamp `t`, used by the
concrete witnesses and counterexamples. -/
def recAt (t : Int) : Record :=
  { success := some (.jbool true)
    instance_id := some (.jstr "i1")
    batch_region := some (.jstr "r1")
    ts := some t }

lemma mapLookup_append (m m' : List Bucket) (k : Int) :
    mapLookup (m ++ m') k = ((mapLookup m k).rec (mapLookup m' k) fun v => some v) := by
  induction m with
  | nil => simp [mapLookup]
  | cons e rest ih =>
    by_cases h : e.1 = k <;> simp [mapLookup, h, ih]

lemma mapLookup_eq_none_iff (m : List Bucket) (k : Int) :
    mapLookup m k = none ↔ k ∉ m.map Prod.fst := by
  induction m with
  | nil => simp [mapLookup]
  | cons e rest ih =>
    by_cases h : e.1 = k
    · simp [mapLookup, h]
    · rw [mapLookup, if_neg h, ih]
      simp only [List.map_cons, List.mem_cons, not_or]
      constructor
      · intro hn
        exact ⟨fun hk => h hk.symm, hn⟩
      · intro hn
        exact hn.2

lemma map_fst_mapBump (m : List Bucket) (k : Int) (ok : Bool) :
    (mapBump m k ok).map Prod.fst = m.map Prod.fst := by
  induction m with
  | nil => rfl
  | cons e rest ih =>
    by_cases h : e.1 = k <;> simp [mapBump, h, ih]

lemma map_fst_replaceFirst (tl : List Bucket) (b : Int) (s f : Nat) :
    (replaceFirst tl b (b, s, f)).map Prod.fst = tl.map Prod.fst := by
  induction tl with
  | nil => rfl
  | cons e rest ih =>
    by_cases h : e.1 = b <;> simp [replaceFirst, h, ih]

lemma length_replaceFirst (tl : List Bucket) (b : Int) (nv : Bucket) :
    (replaceFirst tl b nv).length = tl.length := by
  induction tl with
  | nil => rfl
  | cons e rest ih =>
    by_cases h : e.1 = b <;> simp [replaceFirst, h, ih]

lemma mapPop_cons_self (e : Bucket) (rest : List Bucket) :
    mapPop (e :: rest) e.1 = rest := by
  simp [mapPop]

lemma evictFrom_length_le (m : Nat) (tl bm : List Bucket) :
    (evictFrom m tl bm).1.length ≤ m := by
  induction tl generalizing bm with
  | nil => simp [evictFrom]
  | cons e rest ih =>
    rw [evictFrom]
    split
    · exact ih _
    · rename_i hlen
      simp only [List.length_cons, not_lt] at hlen
      simpa using hlen

lemma evictFrom_of_length_le (m : Nat) (tl bm : List Bucket) (h : tl.length ≤ m) :
    evictFrom m tl bm = (tl, bm) := by
  cases tl with
  | nil => rfl
  | cons e rest =>
    rw [evictFrom]
    rw [if_neg (by omega)]

lemma evictFrom_keys (m : Nat) (tl bm : List Bucket)
    (h : bm.map Prod.fst = tl.map Prod.fst) :
    (evictFrom m tl bm).2.map Prod.fst = (evictFrom m tl bm).1.map Prod.fst := by
  induction tl generalizing bm with
  | nil => simpa [evictFrom] using h
  | cons e rest ih =>
    rw [evictFrom]
    split
    · apply ih
      cases bm with
      | nil => simp at h
      | cons e2 bm2 =>
        simp only [List.map_cons, List.cons.injEq] at h
        simp [mapPop, h.1, h.2]
    · exact h

lemma evictFrom_chain (R : Bucket → Bucket → Prop) (m : Nat) (tl bm : List Bucket)
    (h : List.Chain' R tl) : List.Chain' R (evictFrom m tl bm).1 := by
  induction tl generalizing bm with
  | nil => simp [evictFrom]
  | cons e rest ih =>
    rw [evictFrom]
    split
    · exact ih _ h.tail
    · exact h

lemma evictFrom_getLast (m : Nat) (tl bm : List Bucket) (hne : tl ≠ []) (hm : 1 ≤ m) :
    (evictFrom m tl bm).1 ≠ [] ∧ (evictFrom m tl bm).1.getLast? = tl.getLast? := by
  induction tl generalizing bm with
  | nil => exact absurd rfl hne
  | cons e rest ih =>
    rw [evictFrom]
    split
    · rename_i hlen
      have hrest : rest ≠ [] := by
        cases rest with
        | nil =>
          exfalso
          simp at hlen
          omega
        | cons x xs => simp
      refine ⟨(ih _ hrest).1, ?_⟩
      rw [(ih _ hrest).2]
      cases rest with
      | nil => exact absurd rfl hrest
      | cons x xs => simp [List.getLast?_cons_cons]
    · exact ⟨by simp, rfl⟩

@[simp] lemma ensure_bucket_success (st : MetricsAgg) (b : Int) :
    (st.ensure_bucket b).success = st.success := by
  unfold MetricsAgg.ensure_bucket
  split <;> rfl

@[simp] lemma ensure_bucket_fail (st : MetricsAgg) (b : Int) :
    (st.ensure_bucket b).fail = st.fail := by
  unfold MetricsAgg.ensure_bucket
  split <;> rfl

@[simp] lemma ensure_bucket_per_region (st : MetricsAgg) (b : Int) :
    (st.ensure_bucket b).per_region = st.per_region := by
  unfold MetricsAgg.ensure_bucket
  split <;> rfl

@[simp] lemma ensure_bucket_per_instance (st : MetricsAgg) (b : Int) :
    (st.ensure_bucket b).per_instance = st.per_instance := by
  unfold MetricsAgg.ensure_bucket
  split <;> rfl

@[simp] lemma ensure_bucket_bucket_seconds (st : MetricsAgg) (b : Int) :
    (st.ensure_bucket b).bucket_seconds = st.bucket_seconds := by
  unfold MetricsAgg.ensure_bucket
  split <;> rfl

@[simp] lemma ensure_bucket_max_buckets (st : MetricsAgg) (b : Int) :
    (st.ensure_bucket b).max_buckets = st.max_buckets := by
  unfold MetricsAgg.ensure_bucket
  split <;> rfl

@[simp] lemma ensure_buckets_loop_success (w : Nat) (st : MetricsAgg) (target b : Int) :
    (ensure_buckets_loop w st target b).success = st.success := by
  induction st, target, b using ensure_buckets_loop.induct w with
  | case1 st target b h ih =>
    rw [ensure_buckets_loop, if_pos h]
    simp [ih]
  | case2 st target b h => rw [ensure_buckets_loop, if_neg h]

@[simp] lemma ensure_buckets_loop_fail (w : Nat) (st : MetricsAgg) (target b : Int) :
    (ensure_buckets_loop w st target b).fail = st.fail := by
  induction st, target, b using ensure_buckets_loop.induct w with
  | case1 st target b h ih =>
    rw [ensure_buckets_loop, if_pos h]
    simp [ih]
  | case2 st target b h => rw [ensure_buckets_loop, if_neg h]

@[simp] lemma ensure_buckets_loop_per_region (w : Nat) (st : MetricsAgg) (target b : Int) :
    (ensure_buckets_loop w st target b).per_region = st.per_region := by
  induction st, target, b using ensure_buckets_loop.induct w with
  | case1 st target b h ih =>
    rw [ensure_buckets_loop, if_pos h]
    simp [ih]
  | case2 st target b h => rw [ensure_buckets_loop, if_neg h]

@[simp] lemma ensure_buckets_loop_per_instance (w : Nat) (st : MetricsAgg) (target b : Int) :
    (ensure_buckets_loop w st target b).per_instance = st.per_instance := by
  induction st, target, b using ensure_buckets_loop.induct w with
  | case1 st target b h ih =>
    rw [ensure_buckets_loop, if_pos h]
    simp [ih]
  | case2 st target b h => rw [ensure_buckets_loop, if_neg h]

@[simp] lemma ensure_buckets_loop_bucket_seconds (w : Nat) (st : MetricsAgg) (target b : Int) :
    (ensure_buckets_loop w st target b).bucket_seconds = st.bucket_seconds := by
  induction st, target, b using ensure_buckets_loop.induct w with
  | case1 st target b h ih =>
    rw [ensure_buckets_loop, if_pos h]
    simp [ih]
  | case2 st target b h => rw [ensure_buckets_loop, if_neg h]

@[simp] lemma ensure_buckets_loop_max_buckets (w : Nat) (st : MetricsAgg) (target b : Int) :
    (ensure_buckets_loop w st target b).max_buckets = st.max_buckets := by
  induction st, target, b using ensure_buckets_loop.induct w with
  | case1 st target b h ih =>
    rw [ensure_buckets_loop, if_pos h]
    simp [ih]
  | case2 st target b h => rw [ensure_buckets_loop, if_neg h]

@[simp] lemma ensure_buckets_to_success (st : MetricsAgg) (now : Int) :
    (st.ensure_buckets_to now).success = st.success := by
  unfold MetricsAgg.ensure_buckets_to
  cases st.timeline.getLast? <;> simp

@[simp] lemma ensure_buckets_to_fail (st : MetricsAgg) (now : Int) :
    (st.ensure_buckets_to now).fail = st.fail := by
  unfold MetricsAgg.ensure_buckets_to
  cases st.timeline.getLast? <;> simp

@[simp] lemma ensure_buckets_to_per_region (st : MetricsAgg) (now : Int) :
    (st.ensure_buckets_to now).per_region = st.per_region := by
  unfold MetricsAgg.ensure_buckets_to
  cases st.timeline.getLast? <;> simp

@[simp] lemma ensure_buckets_to_per_instance (st : MetricsAgg) (now : Int) :
    (st.ensure_buckets_to now).per_instance = st.per_instance := by
  unfold MetricsAgg.ensure_buckets_to
  cases st.timeline.getLast? <;> simp

@[simp] lemma ensure_buckets_to_bucket_seconds (st : MetricsAgg) (now : Int) :
    (st.ensure_buckets_to now).bucket_seconds = st.bucket_seconds := by
  unfold MetricsAgg.ensure_buckets_to
  cases st.timeline.getLast? <;> simp

@[simp] lemma ensure_buckets_to_max_buckets (st : MetricsAgg) (now : Int) :
    (st.ensure_buckets_to now).max_buckets = st.max_buckets := by
  unfold MetricsAgg.ensure_buckets_to
  cases st.timeline.getLast? <;> simp

lemma update_nil (st : MetricsAgg) (now : Int) : st.update now [] = st := rfl

lemma update_cons (st : MetricsAgg) (now : Int) (l : Option Record) (ls : List (Option Record)) :
    st.update now (l :: ls) = (ingest_line st now l).update now ls := rfl

@[simp] lemma ingest_line_bucket_seconds (st : MetricsAgg) (now : Int) (line : Option Record) :
    (ingest_line st now line).bucket_seconds = st.bucket_seconds := by
  cases line with
  | none => rfl
  | some obj => simp [ingest_line]

@[simp] lemma ingest_line_max_buckets (st : MetricsAgg) (now : Int) (line : Option Record) :
    (ingest_line st now line).max_buckets = st.max_buckets := by
  cases line with
  | none => rfl
  | some obj => simp [ingest_line]

@[simp] lemma update_bucket_seconds (st : MetricsAgg) (now : Int) (lines : List (Option Record)) :
    (st.update now lines).bucket_seconds = st.bucket_seconds := by
  induction lines generalizing st with
  | nil => rfl
  | cons l ls ih => rw [update_cons, ih, ingest_line_bucket_seconds]

@[simp] lemma update_max_buckets (st : MetricsAgg) (now : Int) (lines : List (Option Record)) :
    (st.update now lines).max_buckets = st.max_buckets := by
  induction lines generalizing st with
  | nil => rfl
  | cons l ls ih => rw [update_cons, ih, ingest_line_max_buckets]

lemma ensure_bucket_keys (st : MetricsAgg) (b : Int)
    (h : st.bucket_map.map Prod.fst = st.timeline.map Prod.fst) :
    (st.ensure_bucket b).bucket_map.map Prod.fst = (st.ensure_bucket b).timeline.map Prod.fst := by
  unfold MetricsAgg.ensure_bucket
  split
  · exact h
  · exact evictFrom_keys _ _ _ (by simp [h])

lemma ensure_bucket_length (st : MetricsAgg) (b : Int)
    (h : st.timeline.length ≤ st.max_buckets) :
    (st.ensure_bucket b).timeline.length ≤ st.max_buckets := by
  unfold MetricsAgg.ensure_bucket
  split
  · exact h
  · exact evictFrom_length_le _ _ _

lemma ensure_buckets_loop_keys (w : Nat) (st : MetricsAgg) (target b : Int)
    (h : st.bucket_map.map Prod.fst = st.timeline.map Prod.fst) :
    (ensure_buckets_loop w st target b).bucket_map.map Prod.fst
      = (ensure_buckets_loop w st target b).timeline.map Prod.fst := by
  induction st, target, b using ensure_buckets_loop.induct w with
  | case1 st target b hc ih =>
    rw [ensure_buckets_loop, if_pos hc]
    exact ih (ensure_bucket_keys _ _ h)
  | case2 st target b hc =>
    rw [ensure_buckets_loop, if_neg hc]
    exact h

lemma ensure_buckets_loop_length (w : Nat) (st : MetricsAgg) (target b : Int)
    (h : st.timeline.length ≤ st.max_buckets) :
    (ensure_buckets_loop w st target b).timeline.length
      ≤ (ensure_buckets_loop w st target b).max_buckets := by
  induction st, target, b using ensure_buckets_loop.induct w with
  | case1 st target b hc ih =>
    rw [ensure_buckets_loop, if_pos hc]
    exact ih (by simpa using ensure_bucket_length st _ h)
  | case2 st target b hc =>
    rw [ensure_buckets_loop, if_neg hc]
    exact h

lemma ensure_buckets_to_keys (st : MetricsAgg) (now : Int)
    (h : st.bucket_map.map Prod.fst = st.timeline.map Prod.fst) :
    (st.ensure_buckets_to now).bucket_map.map Prod.fst
      = (st.ensure_buckets_to now).timeline.map Prod.fst := by
  unfold MetricsAgg.ensure_buckets_to
  cases st.timeline.getLast? with
  | none => exact ensure_bucket_keys _ _ h
  | some e => exact ensure_buckets_loop_keys _ _ _ _ h

lemma ensure_buckets_to_length (st : MetricsAgg) (now : Int)
    (h : st.timeline.length ≤ st.max_buckets) :
    (st.ensure_buckets_to now).timeline.length ≤ (st.ensure_buckets_to now).max_buckets := by
  unfold MetricsAgg.ensure_buckets_to
  cases st.timeline.getLast? with
  | none => simpa using ensure_bucket_length _ _ h
  | some e => exact ensure_buckets_loop_length _ _ _ _ h

lemma ingest_line_keys (st : MetricsAgg) (now : Int) (line : Option Record)
    (h : st.bucket_map.map Prod.fst = st.timeline.map Prod.fst) :
    (ingest_line st now line).bucket_map.map Prod.fst
      = (ingest_line st now line).timeline.map Prod.fst := by
  cases line with
  | none => exact h
  | some obj =>
    simp only [ingest_line]
    rw [map_fst_mapBump, map_fst_replaceFirst]
    exact ensure_bucket_keys _ _ h

lemma ingest_line_length (st : MetricsAgg) (now : Int) (line : Option Record)
    (h : st.timeline.length ≤ st.max_buckets) :
    (ingest_line st now line).timeline.length ≤ st.max_buckets := by
  cases line with
  | none => exact h
  | some obj =>
    simp only [ingest_line]
    rw [length_replaceFirst]
    exact ensure_bucket_length _ _ h

lemma update_keys (st : MetricsAgg) (now : Int) (lines : List (Option Record))
    (h : st.bucket_map.map Prod.fst = st.timeline.map Prod.fst) :
    (st.update now lines).bucket_map.map Prod.fst
      = (st.update now lines).timeline.map Prod.fst := by
  induction lines generalizing st with
  | nil => exact h
  | cons l ls ih =>
    rw [update_cons]
    exact ih _ (ingest_line_keys _ _ _ h)

lemma update_length (st : MetricsAgg) (now : Int) (lines : List (Option Record))
    (h : st.timeline.length ≤ st.max_buckets) :
    (st.update now lines).timeline.length ≤ (st.update now lines).max_buckets := by
  induction lines generalizing st with
  | nil => exact h
  | cons l ls ih =>
    rw [update_cons]
    apply ih
    calc (ingest_line st now l).timeline.length ≤ st.max_buckets := ingest_line_length _ _ _ h
    _ = (ingest_line st now l).max_buckets := (ingest_line_max_buckets _ _ _).symm

/-- Claim C2: after any sequence of aggregator operations the timeline holds
at most `max_buckets` entries, and the bucket map's keys, in order, are
exactly the timeline's bucket start values (which implies the two sets are
equal and that eviction always removes a bucket from both structures
together). -/
theorem C2_bounded_memory_and_consistency (s : MetricsAgg) (h : Reachable s) :
    s.timeline.length ≤ s.max_buckets ∧
    s.bucket_map.map Prod.fst = s.timeline.map Prod.fst := by
  induction h with
  | init bs mb => exact ⟨by simp [MetricsAgg.init], by simp [MetricsAgg.init]⟩
  | ingest now lines hr ih => exact ⟨update_length _ _ _ ih.1, update_keys _ _ _ ih.2⟩
  | backfill now hr ih =>
    exact ⟨ensure_buckets_to_length _ _ ih.1, ensure_buckets_to_keys _ _ ih.2⟩
  | set_width sec hr ih =>
    exact ⟨by simp [MetricsAgg.set_bucket_seconds], by simp [MetricsAgg.set_bucket_seconds]⟩

/-- Witness for C2 at a concrete reachable state that actually evicts: three
events land in buckets 0, 2, 4 with `max_buckets = 2`, so the oldest bucket is
dropped from the deque and the dict together. -/
theorem C2_witness :
    Reachable ((MetricsAgg.init 2 2).update 0 [some (recAt 0), some (recAt 2), some (recAt 4)]) ∧
    ((MetricsAgg.init 2 2).update 0 [some (recAt 0), some (recAt 2), some (recAt 4)]).timeline.length
      ≤ ((MetricsAgg.init 2 2).update 0 [some (recAt 0), some (recAt 2), some (recAt 4)]).max_buckets ∧
    ((MetricsAgg.init 2 2).update 0 [some (recAt 0), some (recAt 2), some (recAt 4)]).bucket_map.map Prod.fst
      = ((MetricsAgg.init 2 2).update 0 [some (recAt 0), some (recAt 2), some (recAt 4)]).timeline.map Prod.fst :=
  ⟨Reachable.ingest 0 _ (Reachable.init 2 2),
   (C2_bounded_memory_and_consistency _ (Reachable.ingest 0 _ (Reachable.init 2 2))).1,
   (C2_bounded_memory_and_consistency _ (Reachable.ingest 0 _ (Reachable.init 2 2))).2⟩

/-- Claim C4: a line that is not valid JSON (`json.loads` fails, modelled by
`none`) is skipped by `update`: the whole aggregate state — totals,
per-category maps and timeline — is exactly what it would have been without
that line, and no error escapes (the embedding is total). -/
theorem C4_malformed_line_is_noop (st : MetricsAgg) (now : Int)
    (pre post : List (Option Record)) :
    st.update now (pre ++ none :: post) = st.update now (pre ++ post) ∧
    ingest_line st now none = st := by
  constructor
  · unfold MetricsAgg.update
    rw [List.foldl_append, List.foldl_append]
    rfl
  · rfl

/-- Claim C5: `set_bucket_seconds` empties the timeline deque and the bucket
dict entirely while leaving the totals and both per-category maps untouched. -/
theorem C5_set_width_clears_only_timeline (st : MetricsAgg) (sec : Int) :
    (st.set_bucket_seconds sec).timeline = [] ∧
    (st.set_bucket_seconds sec).bucket_map = [] ∧
    (st.set_bucket_seconds sec).success = st.success ∧
    (st.set_bucket_seconds sec).fail = st.fail ∧
    (st.set_bucket_seconds sec).per_region = st.per_region ∧
    (st.set_bucket_seconds sec).per_instance = st.per_instance :=
  ⟨rfl, rfl, rfl, rfl, rfl, rfl⟩

lemma chain_le_getLast (w : Nat) (l : List Bucket) (e : Bucket)
    (hc : List.Chain' (fun x y : Bucket => y.1 = x.1 + (w : Int)) l)
    (hl : l.getLast? = some e) :
    ∀ x ∈ l, x.1 ≤ e.1 := by
  induction l with
  | nil => simp
  | cons a rest ih =>
    cases rest with
    | nil =>
      simp only [List.getLast?_singleton, Option.some.injEq] at hl
      subst hl
      intro x hx
      simp only [List.mem_singleton] at hx
      subst hx
      exact le_refl _
    | cons b2 t =>
      rw [List.chain'_cons] at hc
      rw [List.getLast?_cons_cons] at hl
      intro x hx
      rcases List.mem_cons.mp hx with rfl | hx2
      · have hb2 : b2.1 ≤ e.1 := ih hc.2 hl b2 (List.mem_cons_self _ _)
        have hstep := hc.1
        have hwn : (0 : Int) ≤ (w : Int) := Int.ofNat_nonneg w
        omega
      · exact ih hc.2 hl x hx2

lemma ensure_bucket_not_mem (st : MetricsAgg) (b : Int)
    (h : mapLookup st.bucket_map b = none) :
    st.ensure_bucket b =
      { st with
        timeline :=
          (evictFrom st.max_buckets (st.timeline ++ [(b, 0, 0)]) (st.bucket_map ++ [(b, 0, 0)])).1
        bucket_map :=
          (evictFrom st.max_buckets (st.timeline ++ [(b, 0, 0)]) (st.bucket_map ++ [(b, 0, 0)])).2 } := by
  unfold MetricsAgg.ensure_bucket
  rw [h]
  rfl

lemma ensure_buckets_loop_chain (w : Nat) (hw : 1 ≤ w) (st : MetricsAgg) (target b : Int)
    (hkeys : st.bucket_map.map Prod.fst = st.timeline.map Prod.fst)
    (hchain : List.Chain' (fun x y : Bucket => y.1 = x.1 + (w : Int)) st.timeline)
    (hlast : (st.timeline.getLast?).map Prod.fst = some b)
    (hm : 1 ≤ st.max_buckets) :
    List.Chain' (fun x y : Bucket => y.1 = x.1 + (w : Int))
      (ensure_buckets_loop w st target b).timeline := by
  induction st, target, b using ensure_buckets_loop.induct w with
  | case1 st target b hc ih =>
    rw [ensure_buckets_loop, if_pos hc]
    obtain ⟨e, hgl, hfst⟩ : ∃ e, st.timeline.getLast? = some e ∧ e.1 = b := by
      cases hx : st.timeline.getLast? with
      | none => rw [hx] at hlast; simp at hlast
      | some e =>
        rw [hx] at hlast
        simp only [Option.map_some'] at hlast
        exact ⟨e, rfl, by injection hlast⟩
    have hfresh : mapLookup st.bucket_map (b + (w : Int)) = none := by
      rw [mapLookup_eq_none_iff, hkeys]
      intro hmem
      obtain ⟨x, hxmem, hxfst⟩ := List.mem_map.mp hmem
      have hle := chain_le_getLast w _ _ hchain hgl x hxmem
      omega
    rw [ensure_bucket_not_mem _ _ hfresh] at ih ⊢
    have hne : st.timeline ++ [(b + (w : Int), 0, 0)] ≠ [] := by simp
    have hevl := evictFrom_getLast st.max_buckets (st.timeline ++ [(b + (w : Int), 0, 0)])
      (st.bucket_map ++ [(b + (w : Int), 0, 0)]) hne hm
    apply ih
    · exact evictFrom_keys _ _ _ (by simp [hkeys])
    · apply evictFrom_chain
      rw [List.chain'_append]
      refine ⟨hchain, by simp, ?_⟩
      intro x hx y hy
      rw [hgl] at hx
      simp only [Option.mem_def, Option.some.injEq] at hx
      simp only [List.head?_cons, Option.mem_def, Option.some.injEq] at hy
      subst hx
      subst hy
      simp [hfst]
    · rw [hevl.2, List.getLast?_concat]
      rfl
    · simpa using hm
  | case2 st target b hc =>
    rw [ensure_buckets_loop, if_neg hc]
    exact hchain

lemma bf_inv (s : MetricsAgg) (h : ReachableBF s) :
    1 ≤ s.bucket_seconds ∧ 1 ≤ s.max_buckets ∧
    s.bucket_map.map Prod.fst = s.timeline.map Prod.fst ∧
    List.Chain' (fun x y : Bucket => y.1 = x.1 + (s.bucket_seconds : Int)) s.timeline := by
  induction h with
  | init bs mb =>
    refine ⟨?_, ?_, by simp [MetricsAgg.init], by simp [MetricsAgg.init]⟩
    · have h1 : (1 : Int) ≤ max 1 bs := le_max_left 1 bs
      simp only [MetricsAgg.init]
      omega
    · have h1 : (1 : Int) ≤ max 1 mb := le_max_left 1 mb
      simp only [MetricsAgg.init]
      omega
  | @backfill s2 now hr ih =>
    obtain ⟨hw, hm, hk, hc⟩ := ih
    refine ⟨by simpa using hw, by simpa using hm, ensure_buckets_to_keys _ _ hk, ?_⟩
    simp only [ensure_buckets_to_bucket_seconds]
    unfold MetricsAgg.ensure_buckets_to
    cases hgl : s2.timeline.getLast? with
    | none =>
      have htl : s2.timeline = [] := by
        cases h2 : s2.timeline with
        | nil => rfl
        | cons x xs =>
          rw [h2, List.getLast?_eq_getLast _ (by simp)] at hgl
          simp at hgl
      have hbm : s2.bucket_map = [] := by
        rw [htl] at hk
        simpa using hk
      rw [ensure_bucket_not_mem _ _ (by rw [hbm]; rfl)]
      simp only [htl, hbm, List.nil_append]
      rw [evictFrom_of_length_le _ _ _ (by simpa using hm)]
      simp
    | some e =>
      apply ensure_buckets_loop_chain s2.bucket_seconds hw _ _ _ hk hc _ hm
      rw [hgl]
      rfl

/-- Counterexample to claim C1 as stated: the state reached from a fresh
aggregator (width 10) by a single `update` ingesting two valid records whose
timestamps fall in buckets 0 and 20 is reachable by ingest/backfill calls, yet
its timeline `[(0,1,0), (20,1,0)]` jumps by 20 ≠ 10: `update` calls
`_ensure_bucket` directly on each event's own bucket and never fills the gap,
so consecutive entries need not differ by the bucket width. -/
theorem C1_counterexample :
    ReachableIB ((MetricsAgg.init 10 60).update 0 [some (recAt 0), some (recAt 25)]) ∧
    ((MetricsAgg.init 10 60).update 0 [some (recAt 0), some (recAt 25)]).timeline
      = [(0, 1, 0), (20, 1, 0)] ∧
    ¬ List.Chain'
        (fun x y : Bucket => x.1 < y.1 ∧ y.1 = x.1 +
          ((((MetricsAgg.init 10 60).update 0 [some (recAt 0), some (recAt 25)]).bucket_seconds : Nat) : Int))
        ((MetricsAgg.init 10 60).update 0 [some (recAt 0), some (recAt 25)]).timeline :=
  ⟨ReachableIB.ingest 0 _ (ReachableIB.init 10 60), by decide, by
    intro hch
    have ht : ((MetricsAgg.init 10 60).update 0 [some (recAt 0), some (recAt 25)]).timeline
        = [(0, 1, 0), (20, 1, 0)] := by decide
    have hb : ((MetricsAgg.init 10 60).update 0 [some (recAt 0), some (recAt 25)]).bucket_seconds
        = 10 := by decide
    rw [ht, List.chain'_cons, hb] at hch
    have h20 := hch.1.2
    norm_num at h20⟩

/-- Claim C1, amended: for every aggregator state reachable by `backfill_to`
calls alone the bucket start values of the timeline are strictly increasing
and consecutive entries differ by exactly the current bucket width.  (The
claim's original quantification over `ingest` as well is refuted by
`C1_counterexample`: ingesting an event whose bucket is not adjacent to the
last one appends a non-contiguous bucket.) -/
theorem C1_contiguity_backfill_only (s : MetricsAgg) (h : ReachableBF s) :
    List.Chain'
      (fun x y : Bucket => x.1 < y.1 ∧ y.1 = x.1 + ((s.bucket_seconds : Nat) : Int))
      s.timeline := by
  obtain ⟨hw, hm, hk, hc⟩ := bf_inv s h
  refine List.Chain'.imp ?_ hc
  intro x y hxy
  refine ⟨?_, hxy⟩
  have hw1 : (1 : Int) ≤ (s.bucket_seconds : Int) := by exact_mod_cast hw
  omega

/-- Witness for the amended C1 at a concrete backfill-only state: a fresh
aggregator backfilled to time 0 and then to time 35 has the contiguous
timeline `[(0,0,0), (10,0,0), (20,0,0), (30,0,0)]`. -/
theorem C1_witness :
    ReachableBF (((MetricsAgg.init 10 60).ensure_buckets_to 0).ensure_buckets_to 35) ∧
    List.Chain'
      (fun x y : Bucket => x.1 < y.1 ∧ y.1 = x.1 +
        (((((MetricsAgg.init 10 60).ensure_buckets_to 0).ensure_buckets_to 35).bucket_seconds : Nat) : Int))
      (((MetricsAgg.init 10 60).ensure_buckets_to 0).ensure_buckets_to 35).timeline :=
  ⟨ReachableBF.backfill 35 (ReachableBF.backfill 0 (ReachableBF.init 10 60)),
   C1_contiguity_backfill_only _
     (ReachableBF.backfill 35 (ReachableBF.backfill 0 (ReachableBF.init 10 60)))⟩

lemma ingest_line_some_success (st : MetricsAgg) (now : Int) (obj : Record) :
    (ingest_line st now (some obj)).success
      = st.success + (if (obj.success.map truthy).getD false then 1 else 0) := by
  simp [ingest_line]

lemma ingest_line_some_fail (st : MetricsAgg) (now : Int) (obj : Record) :
    (ingest_line st now (some obj)).fail
      = st.fail + (if (obj.success.map truthy).getD false then 0 else 1) := by
  simp [ingest_line]

lemma ingest_line_some_per_region (st : MetricsAgg) (now : Int) (obj : Record) :
    (ingest_line st now (some obj)).per_region
      = catBump st.per_region (pyOrUnknown obj.batch_region)
          ((obj.success.map truthy).getD false) := by
  simp [ingest_line]

lemma ingest_line_some_per_instance (st : MetricsAgg) (now : Int) (obj : Record) :
    (ingest_line st now (some obj)).per_instance
      = catBump st.per_instance (pyOrUnknown obj.instance_id)
          ((obj.success.map truthy).getD false) := by
  simp [ingest_line]

lemma catBump_le (m : String → Nat × Nat) (kk : String) (ok : Bool) (k : String) :
    (m k).1 ≤ (catBump m kk ok k).1 ∧ (m k).2 ≤ (catBump m kk ok k).2 := by
  unfold catBump
  by_cases h : k = kk
  · subst h
    cases ok <;> simp
  · simp [h]

lemma ingest_line_mono (st : MetricsAgg) (now : Int) (line : Option Record) :
    st.success ≤ (ingest_line st now line).success ∧
    st.fail ≤ (ingest_line st now line).fail ∧
    ∀ k,
      (st.per_region k).1 ≤ ((ingest_line st now line).per_region k).1 ∧
      (st.per_region k).2 ≤ ((ingest_line st now line).per_region k).2 ∧
      (st.per_instance k).1 ≤ ((ingest_line st now line).per_instance k).1 ∧
      (st.per_instance k).2 ≤ ((ingest_line st now line).per_instance k).2 := by
  cases line with
  | none => simp [ingest_line]
  | some obj =>
    refine ⟨?_, ?_, fun k => ?_⟩
    · rw [ingest_line_some_success]
      exact Nat.le_add_right _ _
    · rw [ingest_line_some_fail]
      exact Nat.le_add_right _ _
    · rw [ingest_line_some_per_region, ingest_line_some_per_instance]
      obtain ⟨c1, c2⟩ := catBump_le st.per_region (pyOrUnknown obj.batch_region)
        ((obj.success.map truthy).getD false) k
      obtain ⟨d1, d2⟩ := catBump_le st.per_instance (pyOrUnknown obj.instance_id)
        ((obj.success.map truthy).getD false) k
      exact ⟨c1, c2, d1, d2⟩

lemma update_mono (st : MetricsAgg) (now : Int) (lines : List (Option Record)) :
    st.success ≤ (st.update now lines).success ∧
    st.fail ≤ (st.update now lines).fail ∧
    ∀ k,
      (st.per_region k).1 ≤ ((st.update now lines).per_region k).1 ∧
      (st.per_region k).2 ≤ ((st.update now lines).per_region k).2 ∧
      (st.per_instance k).1 ≤ ((st.update now lines).per_instance k).1 ∧
      (st.per_instance k).2 ≤ ((st.update now lines).per_instance k).2 := by
  induction lines generalizing st with
  | nil => simp [update_nil]
  | cons l ls ih =>
    rw [update_cons]
    obtain ⟨g1, g2, g3⟩ := ingest_line_mono st now l
    obtain ⟨h1, h2, h3⟩ := ih (ingest_line st now l)
    refine ⟨le_trans g1 h1, le_trans g2 h2, fun k => ?_⟩
    obtain ⟨a1, a2, a3, a4⟩ := g3 k
    obtain ⟨b1, b2, b3, b4⟩ := h3 k
    exact ⟨le_trans a1 b1, le_trans a2 b2, le_trans a3 b3, le_trans a4 b4⟩

/-- Claim C6: across any sequence of aggregator operations (ingest, backfill,
bucket-width change) the totals and every per-category counter are
non-decreasing; in particular `success + fail` never decreases. -/
theorem C6_counters_monotone (s t : MetricsAgg) (h : Steps s t) :
    s.success ≤ t.success ∧ s.fail ≤ t.fail ∧
    s.success + s.fail ≤ t.success + t.fail ∧
    ∀ k,
      (s.per_region k).1 ≤ (t.per_region k).1 ∧
      (s.per_region k).2 ≤ (t.per_region k).2 ∧
      (s.per_instance k).1 ≤ (t.per_instance k).1 ∧
      (s.per_instance k).2 ≤ (t.per_instance k).2 := by
  induction h with
  | refl => simp
  | @ingest t2 now lines hst ih =>
    obtain ⟨h1, h2, h3, h4⟩ := ih
    obtain ⟨g1, g2, g3⟩ := update_mono t2 now lines
    refine ⟨le_trans h1 g1, le_trans h2 g2, le_trans h3 (Nat.add_le_add g1 g2), fun k => ?_⟩
    obtain ⟨a1, a2, a3, a4⟩ := h4 k
    obtain ⟨b1, b2, b3, b4⟩ := g3 k
    exact ⟨le_trans a1 b1, le_trans a2 b2, le_trans a3 b3, le_trans a4 b4⟩
  | @backfill t2 now hst ih =>
    simpa only [ensure_buckets_to_success, ensure_buckets_to_fail,
      ensure_buckets_to_per_region, ensure_buckets_to_per_instance] using ih
  | @set_width t2 sec hst ih =>
    simpa only [MetricsAgg.set_bucket_seconds] using ih

/-- Witness for C6 on a concrete three-step run: ingest one successful record,
then change the bucket width; the total and the `"r1"` fail counter never
decrease. -/
theorem C6_witness :
    Steps (MetricsAgg.init 10 60)
      (((MetricsAgg.init 10 60).update 0 [some (recAt 0)]).set_bucket_seconds 5) ∧
    (MetricsAgg.init 10 60).success + (MetricsAgg.init 10 60).fail
      ≤ (((MetricsAgg.init 10 60).update 0 [some (recAt 0)]).set_bucket_seconds 5).success
        + (((MetricsAgg.init 10 60).update 0 [some (recAt 0)]).set_bucket_seconds 5).fail ∧
    ((MetricsAgg.init 10 60).per_region "r1").2
      ≤ ((((MetricsAgg.init 10 60).update 0 [some (recAt 0)]).set_bucket_seconds 5).per_region "r1").2 :=
  ⟨Steps.set_width 5 (Steps.ingest 0 _ (Steps.refl _)),
   (C6_counters_monotone _ _ (Steps.set_width 5 (Steps.ingest 0 _ (Steps.refl _)))).2.2.1,
   ((C6_counters_monotone _ _ (Steps.set_width 5 (Steps.ingest 0 _ (Steps.refl _)))).2.2.2 "r1").2.1⟩

/-- Claim C10: a valid JSON line whose `success` field is absent, `null` or
`false` is counted as a failure, not dropped: the total fail counter and the
fail counters of the record's instance and region categories each grow by
one, while the success total is untouched. -/
theorem C10_falsy_success_is_failure (st : MetricsAgg) (now : Int) (r : Record)
    (h : r.success = none ∨ r.success = some JVal.jnull ∨ r.success = some (JVal.jbool false)) :
    (ingest_line st now (some r)).fail = st.fail + 1 ∧
    (ingest_line st now (some r)).success = st.success ∧
    ((ingest_line st now (some r)).per_instance (pyOrUnknown r.instance_id)).2
      = (st.per_instance (pyOrUnknown r.instance_id)).2 + 1 ∧
    ((ingest_line st now (some r)).per_region (pyOrUnknown r.batch_region)).2
      = (st.per_region (pyOrUnknown r.batch_region)).2 + 1 := by
  have hok : (r.success.map truthy).getD false = false := by
    rcases h with h | h | h <;> simp [h, truthy]
  refine ⟨?_, ?_, ?_, ?_⟩
  · rw [ingest_line_some_fail, hok]
    simp
  · rw [ingest_line_some_success, hok]
    simp
  · rw [ingest_line_some_per_instance, hok]
    simp [catBump]
  · rw [ingest_line_some_per_region, hok]
    simp [catBump]

/-- Witness for C10: ingesting a record with no `success` key into a fresh
aggregator bumps the fail counters of its categories. -/
theorem C10_witness :
    ((none : Option JVal) = none ∨ (none : Option JVal) = some JVal.jnull
      ∨ (none : Option JVal) = some (JVal.jbool false)) ∧
    (ingest_line (MetricsAgg.init 10 60) 0
        (some { success := none, instance_id := some (.jstr "i2"), batch_region := none, ts := some 0 })).fail
      = (MetricsAgg.init 10 60).fail + 1 ∧
    ((ingest_line (MetricsAgg.init 10 60) 0
        (some { success := none, instance_id := some (.jstr "i2"), batch_region := none, ts := some 0 })).per_region
      (pyOrUnknown (none : Option JVal))).2
      = ((MetricsAgg.init 10 60).per_region (pyOrUnknown (none : Option JVal))).2 + 1 :=
  ⟨Or.inl rfl,
   (C10_falsy_success_is_failure (MetricsAgg.init 10 60) 0
      { success := none, instance_id := some (.jstr "i2"), batch_region := none, ts := some 0 }
      (Or.inl rfl)).1,
   (C10_falsy_success_is_failure (MetricsAgg.init 10 60) 0
      { success := none, instance_id := some (.jstr "i2"), batch_region := none, ts := some 0 }
      (Or.inl rfl)).2.2.2⟩

lemma mapLookup_append_of_none (m m2 : List Bucket) (k : Int) (h : mapLookup m k = none) :
    mapLookup (m ++ m2) k = mapLookup m2 k := by
  rw [mapLookup_append, h]

lemma ensure_bucket_fresh_room (st : MetricsAgg) (b : Int)
    (hfresh : mapLookup st.bucket_map b = none)
    (hroom : st.timeline.length + 1 ≤ st.max_buckets) :
    st.ensure_bucket b =
      { st with
        timeline := st.timeline ++ [(b, 0, 0)]
        bucket_map := st.bucket_map ++ [(b, 0, 0)] } := by
  rw [ensure_bucket_not_mem _ _ hfresh]
  rw [evictFrom_of_length_le _ _ _ (by simpa using hroom)]

lemma newBuckets_succ (L : Int) (w : Nat) (n : Nat) :
    newBuckets L w (n + 1) = (L + (w : Int), 0, 0) :: newBuckets (L + (w : Int)) w n := by
  unfold newBuckets
  rw [List.range_succ_eq_map]
  simp only [List.map_cons, List.map_map]
  congr 1
  · norm_num
  · apply List.map_congr_left
    intro j hj
    simp only [Function.comp_apply, Prod.mk.injEq, and_true]
    push_cast
    ring_nf

lemma ensure_buckets_loop_appends (w : Nat) (hw : 1 ≤ w) (k : Nat) :
    ∀ (st : MetricsAgg) (b : Int),
      (∀ j < k, mapLookup st.bucket_map (b + ((j : Int) + 1) * (w : Int)) = none) →
      st.timeline.length + k ≤ st.max_buckets →
      ensure_buckets_loop w st (b + (k : Int) * (w : Int)) b =
        { st with
          timeline := st.timeline ++ newBuckets b w k
          bucket_map := st.bucket_map ++ newBuckets b w k } := by
  induction k with
  | zero =>
    intro st b hfresh hroom
    rw [ensure_buckets_loop]
    rw [if_neg (by simp)]
    rw [show newBuckets b w 0 = [] from rfl]
    simp
  | succ n ih =>
    intro st b hfresh hroom
    have hw1 : (1 : Int) ≤ (w : Int) := by exact_mod_cast hw
    have hprod : (1 : Int) ≤ ((n : Int) + 1) * (w : Int) := by
      have hn : (1 : Int) ≤ (n : Int) + 1 := by
        have : (0 : Int) ≤ (n : Int) := Int.ofNat_nonneg n
        omega
      nlinarith
    have hcond : 0 < w ∧ b < b + ((n + 1 : Nat) : Int) * (w : Int) := by
      refine ⟨hw, ?_⟩
      push_cast
      linarith [hprod]
    rw [ensure_buckets_loop]
    rw [if_pos hcond]
    have hfresh0 : mapLookup st.bucket_map (b + (w : Int)) = none := by
      have h0 := hfresh 0 (by omega)
      norm_num at h0
      exact h0
    rw [show st.ensure_bucket (b + (w : Int)) =
        { st with
          timeline := st.timeline ++ [(b + (w : Int), 0, 0)]
          bucket_map := st.bucket_map ++ [(b + (w : Int), 0, 0)] } from
      ensure_bucket_fresh_room _ _ hfresh0 (by omega)]
    rw [show b + ((n + 1 : Nat) : Int) * (w : Int)
        = (b + (w : Int)) + (n : Int) * (w : Int) by push_cast; ring]
    rw [ih _ (b + (w : Int)) ?_ ?_]
    · rw [newBuckets_succ]
      simp [List.append_assoc]
    · intro j hj
      rw [mapLookup_append_of_none]
      · have hj1 : (1 : Int) ≤ ((j : Int) + 1) * (w : Int) := by
          have hjn : (1 : Int) ≤ (j : Int) + 1 := by
            have : (0 : Int) ≤ (j : Int) := Int.ofNat_nonneg j
            omega
          nlinarith
        simp only [mapLookup]
        rw [if_neg (by omega)]
      · have hjk := hfresh (j + 1) (by omega)
        rw [show (b + (w : Int)) + ((j : Int) + 1) * (w : Int)
            = b + (((j + 1 : Nat) : Int) + 1) * (w : Int) by push_cast; ring]
        exact hjk
    · simp only [List.length_append, List.length_singleton]
      omega

lemma ensure_buckets_to_empty (st : MetricsAgg) (now : Int)
    (htl : st.timeline = []) (hbm : st.bucket_map = []) (hm : 1 ≤ st.max_buckets) :
    st.ensure_buckets_to now =
      { st with
        timeline := [(bucket_start now st.bucket_seconds, 0, 0)]
        bucket_map := [(bucket_start now st.bucket_seconds, 0, 0)] } := by
  unfold MetricsAgg.ensure_buckets_to
  rw [htl]
  simp only [List.getLast?_nil]
  rw [ensure_bucket_fresh_room st _ (by rw [hbm]; rfl) (by rw [htl]; simpa using hm)]
  rw [htl, hbm]
  simp

/-- Claim C3, amended: `backfill_to(now)` appends exactly the `k` empty
buckets `(L + width, 0, 0) … (L + k*width, 0, 0)` and changes nothing else,
provided those bucket starts are not already present in the bucket map and the
grown timeline still fits in `max_buckets`; on an empty timeline (with an
empty bucket map, which always accompanies it in reachable states) it creates
only the single bucket containing `now`.  The two provisos are forced by
`C3_counterexample`: without room the append also evicts old buckets, and a
bucket start that already exists (possible after out-of-order ingest) is
skipped rather than appended. -/
theorem C3_backfill_appends_exactly :
    (∀ (st : MetricsAgg) (now L : Int) (k : Nat) (e : Bucket),
      st.timeline.getLast? = some e →
      e.1 = L →
      1 ≤ st.bucket_seconds →
      bucket_start now st.bucket_seconds = L + (k : Int) * (st.bucket_seconds : Int) →
      1 ≤ k →
      (∀ j < k, mapLookup st.bucket_map (L + ((j : Int) + 1) * (st.bucket_seconds : Int)) = none) →
      st.timeline.length + k ≤ st.max_buckets →
      st.ensure_buckets_to now =
        { st with
          timeline := st.timeline ++ newBuckets L st.bucket_seconds k
          bucket_map := st.bucket_map ++ newBuckets L st.bucket_seconds k }) ∧
    (∀ (st : MetricsAgg) (now : Int),
      st.timeline = [] → st.bucket_map = [] → 1 ≤ st.max_buckets →
      st.ensure_buckets_to now =
        { st with
          timeline := [(bucket_start now st.bucket_seconds, 0, 0)]
          bucket_map := [(bucket_start now st.bucket_seconds, 0, 0)] }) := by
  constructor
  · intro st now L k e hlast hL hw hT hk hfresh hroom
    have hred : st.ensure_buckets_to now
        = ensure_buckets_loop st.bucket_seconds st (bucket_start now st.bucket_seconds) e.1 := by
      unfold MetricsAgg.ensure_buckets_to
      rw [hlast]
    rw [hred, hL, hT]
    exact ensure_buckets_loop_appends st.bucket_seconds hw k st L hfresh hroom
  · intro st now htl hbm hm
    exact ensure_buckets_to_empty st now htl hbm hm

/-- Counterexample to claim C3 as stated: with `max_buckets = 1` and timeline
`[(0,0,0)]`, `backfill_to(10)` (one idle width, `k = 1`) does not merely
append `(10,0,0)` — the `_ensure_bucket` eviction loop also removes `(0,0,0)`,
so the resulting timeline `[(10,0,0)]` is not the old timeline plus the new
buckets; the backfill changed something else. -/
theorem C3_counterexample :
    ((MetricsAgg.init 10 1).ensure_buckets_to 0).timeline = [(0, 0, 0)] ∧
    (((MetricsAgg.init 10 1).ensure_buckets_to 0).ensure_buckets_to 10).timeline
      ≠ ((MetricsAgg.init 10 1).ensure_buckets_to 0).timeline ++ newBuckets 0 10 1 := by
  have h1 : (MetricsAgg.init 10 1).ensure_buckets_to 0
      = { MetricsAgg.init 10 1 with timeline := [(0, 0, 0)], bucket_map := [(0, 0, 0)] } := by
    rw [ensure_buckets_to_empty _ _ rfl rfl (by decide)]
    norm_num [bucket_start]
  have h2 : ({ MetricsAgg.init 10 1 with
        timeline := [(0, 0, 0)], bucket_map := [(0, 0, 0)] } : MetricsAgg).ensure_buckets_to 10
      = ({ MetricsAgg.init 10 1 with
        timeline := [(0, 0, 0)], bucket_map := [(0, 0, 0)] } : MetricsAgg).ensure_bucket 10 := by
    unfold MetricsAgg.ensure_buckets_to
    simp only [List.getLast?_singleton]
    rw [show ({ MetricsAgg.init 10 1 with
        timeline := [(0, 0, 0)], bucket_map := [(0, 0, 0)] } : MetricsAgg).bucket_seconds = 10
      from by decide]
    rw [show bucket_start 10 10 = 10 from by decide]
    rw [ensure_buckets_loop]
    rw [if_pos (by norm_num)]
    rw [ensure_buckets_loop]
    rw [if_neg (by norm_num)]
    norm_num
  constructor
  · rw [h1]
  · rw [h1, h2]
    decide

/-- Witness for the amended C3: after one ingested event in bucket 0, a
backfill to time 30 (three idle widths) appends exactly the three empty
buckets `(10,0,0), (20,0,0), (30,0,0)` and changes nothing else. -/
theorem C3_witness :
    ((MetricsAgg.init 10 60).update 0 [some (recAt 0)]).timeline.getLast? = some (0, 1, 0) ∧
    (0, 1, 0).1 = (0 : Int) ∧
    1 ≤ ((MetricsAgg.init 10 60).update 0 [some (recAt 0)]).bucket_seconds ∧
    bucket_start 30 ((MetricsAgg.init 10 60).update 0 [some (recAt 0)]).bucket_seconds
      = 0 + (3 : Int) * (((MetricsAgg.init 10 60).update 0 [some (recAt 0)]).bucket_seconds : Int) ∧
    1 ≤ 3 ∧
    (∀ j : Nat, j < 3 → mapLookup ((MetricsAgg.init 10 60).update 0 [some (recAt 0)]).bucket_map
      (0 + ((j : Int) + 1)
        * (((MetricsAgg.init 10 60).update 0 [some (recAt 0)]).bucket_seconds : Int)) = none) ∧
    ((MetricsAgg.init 10 60).update 0 [some (recAt 0)]).timeline.length + 3
      ≤ ((MetricsAgg.init 10 60).update 0 [some (recAt 0)]).max_buckets ∧
    ((MetricsAgg.init 10 60).update 0 [some (recAt 0)]).ensure_buckets_to 30 =
      { (MetricsAgg.init 10 60).update 0 [some (recAt 0)] with
        timeline := ((MetricsAgg.init 10 60).update 0 [some (recAt 0)]).timeline
          ++ newBuckets 0 ((MetricsAgg.init 10 60).update 0 [some (recAt 0)]).bucket_seconds 3
        bucket_map := ((MetricsAgg.init 10 60).update 0 [some (recAt 0)]).bucket_map
          ++ newBuckets 0 ((MetricsAgg.init 10 60).update 0 [some (recAt 0)]).bucket_seconds 3 } :=
  ⟨by decide, by decide, by decide, by decide, by decide,
   by decide,
   by decide,
   C3_backfill_appends_exactly.1 ((MetricsAgg.init 10 60).update 0 [some (recAt 0)])
     30 0 3 (0, 1, 0) (by decide) (by decide) (by decide) (by decide) (by decide)
     (by decide)
     (by decide)⟩

/-- Claim C7: a tailed file whose stored offset exceeds its current size
(rotation/truncation) is re-read from offset 0 on this poll: the poll returns
the lines of the entire current content, and the stored offset becomes
`0 + size` — the full content consumed from the start. -/
theorem C7_rotation_reingests_from_start (ps : List (String × Nat)) (path : String)
    (data : List Char) (pos : Nat)
    (hpos : posLookup ps path = some pos) (hlt : data.length < pos) :
    read_one_file ⟨ps⟩ path (some data) =
      (⟨posInsert ps path (0 + data.length)⟩,
       (pySplitlines data).map (fun ln => (path, ln))) := by
  unfold read_one_file
  rw [hpos]
  simp only [Option.getD_some]
  rw [if_pos hlt]
  by_cases hd : data = []
  · subst hd
    simp [pySplitlines]
  · have hlen : data.length > 0 := List.length_pos.mpr hd
    rw [if_pos hlen]
    simp

/-- Witness for C7: a file recorded at offset 10 now holds only the five
bytes `"hi\nyo"`; the poll returns both lines and stores offset 5. -/
theorem C7_witness :
    posLookup [("a.log", 10)] "a.log" = some 10 ∧
    (['h', 'i', '\n', 'y', 'o'] : List Char).length < 10 ∧
    read_one_file ⟨[("a.log", 10)]⟩ "a.log" (some ['h', 'i', '\n', 'y', 'o']) =
      (⟨posInsert [("a.log", 10)] "a.log" (0 + (['h', 'i', '\n', 'y', 'o'] : List Char).length)⟩,
       (pySplitlines ['h', 'i', '\n', 'y', 'o']).map (fun ln => ("a.log", ln))) :=
  ⟨by decide, by decide,
   C7_rotation_reingests_from_start [("a.log", 10)] "a.log" ['h', 'i', '\n', 'y', 'o'] 10
     (by decide) (by decide)⟩

lemma posLookup_posInsert (ps : List (String × Nat)) (p : String) (v : Nat) (q : String) :
    posLookup (posInsert ps p v) q = if q = p then some v else posLookup ps q := by
  induction ps with
  | nil =>
    by_cases h : q = p
    · subst h
      simp [posInsert, posLookup]
    · have hpq : ¬(p = q) := fun hh => h hh.symm
      simp [posInsert, posLookup, h, hpq]
  | cons e rest ih =>
    by_cases h1 : e.1 = p
    · by_cases h2 : q = p
      · subst h2
        simp [posInsert, posLookup, h1]
      · have hpq : ¬(p = q) := fun hh => h2 hh.symm
        have heq : ¬(e.1 = q) := by rw [h1]; exact hpq
        simp [posInsert, posLookup, h1, h2, hpq, heq]
    · by_cases h3 : e.1 = q
      · have hqp : ¬(q = p) := fun hh => h1 (h3.trans hh)
        simp [posInsert, posLookup, h1, h3, hqp]
      · simp [posInsert, posLookup, h1, h3, ih]

lemma read_one_file_idle (st : FileTail) (p : String) (data : List Char)
    (h : data.length = (posLookup st.positions p).getD 0) :
    read_one_file st p (some data) = (⟨posInsert st.positions p data.length⟩, []) := by
  have hp : (posLookup st.positions p).getD 0 = data.length := h.symm
  simp [read_one_file, hp]

lemma read_fold_idle (files : List (String × Option (List Char))) :
    ∀ (st : FileTail) (acc : List (String × List Char)),
      (∀ pc ∈ files, pc.2.map List.length = some ((posLookup st.positions pc.1).getD 0)) →
      (files.foldl
        (fun acc2 pc =>
          let r := read_one_file acc2.1 pc.1 pc.2
          (r.1, acc2.2 ++ r.2)) (st, acc)).2 = acc ∧
      ∀ q, (posLookup (files.foldl
        (fun acc2 pc =>
          let r := read_one_file acc2.1 pc.1 pc.2
          (r.1, acc2.2 ++ r.2)) (st, acc)).1.positions q).getD 0
        = (posLookup st.positions q).getD 0 := by
  induction files with
  | nil => exact fun st acc h => ⟨rfl, fun q => rfl⟩
  | cons pc fs ih =>
    intro st acc h
    obtain ⟨data, hdata⟩ : ∃ data, pc.2 = some data := by
      cases hpc : pc.2 with
      | none =>
        have := h pc (List.mem_cons_self _ _)
        rw [hpc] at this
        simp at this
      | some d => exact ⟨d, rfl⟩
    have hlen : data.length = (posLookup st.positions pc.1).getD 0 := by
      have := h pc (List.mem_cons_self _ _)
      rw [hdata] at this
      simpa using this
    have hpres : ∀ q, (posLookup (posInsert st.positions pc.1 data.length) q).getD 0
        = (posLookup st.positions q).getD 0 := by
      intro q
      rw [posLookup_posInsert]
      by_cases hq : q = pc.1
      · rw [if_pos hq, hq, hlen]
        rfl
      · rw [if_neg hq]
    have hnext : ∀ pc2 ∈ fs,
        pc2.2.map List.length
          = some ((posLookup (posInsert st.positions pc.1 data.length) pc2.1).getD 0) := by
      intro pc2 hm
      rw [hpres pc2.1]
      exact h pc2 (List.mem_cons_of_mem _ hm)
    rw [List.foldl_cons]
    simp only [hdata, read_one_file_idle st pc.1 data hlen, List.append_nil]
    obtain ⟨ih1, ih2⟩ := ih ⟨posInsert st.positions pc.1 data.length⟩ acc hnext
    exact ⟨ih1, fun q => (ih2 q).trans (hpres q)⟩

/-- Claim C8: a poll over files none of which has grown (every matched file's
size equals its recorded offset) returns no lines, and feeding that empty
result — under any line decoding — to the aggregator's `update` changes
nothing. -/
theorem C8_idle_poll_is_noop (st : FileTail) (files : List (String × Option (List Char)))
    (h : ∀ pc ∈ files, pc.2.map List.length = some ((posLookup st.positions pc.1).getD 0)) :
    (st.read_new_lines files).2 = [] ∧
    ∀ (decode : String × List Char → Option Record) (agg : MetricsAgg) (now : Int),
      agg.update now (((st.read_new_lines files).2).map decode) = agg := by
  have h0 := (read_fold_idle files st [] h).1
  refine ⟨h0, ?_⟩
  intro decode agg now
  rw [show (st.read_new_lines files).2 = [] from h0]
  rfl

/-- Witness for C8: one file of two bytes already consumed at offset 2; the
poll returns nothing and a fresh aggregator is untouched by it. -/
theorem C8_witness :
    (∀ pc ∈ [("a.log", some (['h', 'i'] : List Char))],
      pc.2.map List.length = some ((posLookup [("a.log", 2)] pc.1).getD 0)) ∧
    ((⟨[("a.log", 2)]⟩ : FileTail).read_new_lines [("a.log", some ['h', 'i'])]).2 = [] ∧
    (MetricsAgg.init 10 60).update 0
        ((((⟨[("a.log", 2)]⟩ : FileTail).read_new_lines [("a.log", some ['h', 'i'])]).2).map
          (fun _ => none))
      = MetricsAgg.init 10 60 :=
  ⟨by decide,
   (C8_idle_poll_is_noop ⟨[("a.log", 2)]⟩ [("a.log", some ['h', 'i'])] (by decide)).1,
   (C8_idle_poll_is_noop ⟨[("a.log", 2)]⟩ [("a.log", some ['h', 'i'])] (by decide)).2
     (fun _ => none) (MetricsAgg.init 10 60) 0⟩

lemma intercalate_pair (s a b : String) : String.intercalate s [a, b] = a ++ s ++ b := by
  simp [String.intercalate, String.intercalate.go]

lemma render_two_rows (tl : List Bucket) (width height : Nat)
    (hne : tl ≠ []) (hh : 2 ≤ height) :
    render_timeline_ascii tl width height =
      ljust (String.mk (sLineOf (visibleData tl width) (maxTotal (visibleData tl width)))) (width - 1)
        ++ "\n"
        ++ ljust (String.mk (fLineOf (visibleData tl width))) (width - 1) := by
  unfold render_timeline_ascii
  rw [if_neg hne]
  simp only [hh, if_true, List.singleton_append]
  exact intercalate_pair _ _ _

/-- Claim C9, amended: in the ASCII renderer's two output rows, an all-success
bucket (`s ≠ 0`, `f = 0`) is marked `'S'` in the density row, overriding its
density glyph; an all-fail bucket (`f ≠ 0`, `s = 0`) keeps its density-ramp
glyph in the density row and is instead marked `'F'` in the separate failure
row (which exists only when the pane height is at least 2); every other bucket
shows the 10-level ramp glyph scaled by the window maximum and a blank in the
failure row.  (The claim's symmetric "all-fail marker overriding the density
glyph" is refuted by `C9_counterexample`.) -/
theorem C9_ascii_markers (tl : List Bucket) (width height : Nat) (i : Nat)
    (b : Int) (s f : Nat)
    (hne : tl ≠ []) (hh : 2 ≤ height)
    (hget : (visibleData tl width)[i]? = some (b, s, f)) :
    render_timeline_ascii tl width height =
      ljust (String.mk (sLineOf (visibleData tl width) (maxTotal (visibleData tl width)))) (width - 1)
        ++ "\n"
        ++ ljust (String.mk (fLineOf (visibleData tl width))) (width - 1) ∧
    (s ≠ 0 ∧ f = 0 →
      (sLineOf (visibleData tl width) (maxTotal (visibleData tl width)))[i]? = some 'S' ∧
      (fLineOf (visibleData tl width))[i]? = some ' ') ∧
    (f ≠ 0 ∧ s = 0 →
      (sLineOf (visibleData tl width) (maxTotal (visibleData tl width)))[i]?
        = some (rampChars.getD
            ((rampChars.length - 1) * (s + f) / maxTotal (visibleData tl width)) ' ') ∧
      (fLineOf (visibleData tl width))[i]? = some 'F') ∧
    (¬(s ≠ 0 ∧ f = 0) → ¬(f ≠ 0 ∧ s = 0) →
      (sLineOf (visibleData tl width) (maxTotal (visibleData tl width)))[i]?
        = some (rampChars.getD
            ((rampChars.length - 1) * (s + f) / maxTotal (visibleData tl width)) ' ') ∧
      (fLineOf (visibleData tl width))[i]? = some ' ') := by
  refine ⟨render_two_rows tl width height hne hh, ?_, ?_, ?_⟩
  · intro hsf
    unfold sLineOf fLineOf
    rw [List.getElem?_map, List.getElem?_map, hget]
    simp only [Option.map_some']
    constructor
    · rw [if_pos (by simpa using hsf)]
    · rw [if_neg (by simp [hsf.2])]
  · intro hfs
    unfold sLineOf fLineOf
    rw [List.getElem?_map, List.getElem?_map, hget]
    simp only [Option.map_some']
    constructor
    · rw [if_neg (by simp [hfs.2])]
    · rw [if_pos (by simpa using hfs)]
  · intro h1 h2
    unfold sLineOf fLineOf
    rw [List.getElem?_map, List.getElem?_map, hget]
    simp only [Option.map_some']
    constructor
    · rw [if_neg (by simpa using h1)]
    · rw [if_neg (by simpa using h2)]

/-- Counterexample to claim C9 as stated: the timeline `[(0,0,5)]` holds one
all-fail bucket (`fail = 5 > 0`, `success = 0`), yet the rendered density row
is `"@ "`: the bucket's cell is `'@'` — the top glyph of the density ramp, not
a distinct marker.  The `'F'` marker only appears in the separate failure row;
it does not override the density glyph, so the claimed symmetry with the
all-success `'S'` override fails. -/
theorem C9_counterexample :
    render_timeline_ascii [(0, 0, 5)] 3 2 = "@ \nF " ∧
    (sLineOf (visibleData [(0, 0, 5)] 3) (maxTotal (visibleData [(0, 0, 5)] 3)))[0]?
      = some '@' ∧
    '@' ∈ rampChars := by
  refine ⟨?_, by decide, by decide⟩
  decide

/-- Witness for the amended C9 on the timeline `[(0,1,0), (10,0,2), (20,3,4)]`
(width 10, height 2), at the all-fail bucket `(10,0,2)`. -/
theorem C9_witness :
    (([(0, 1, 0), (10, 0, 2), (20, 3, 4)] : List Bucket) ≠ []) ∧
    2 ≤ 2 ∧
    (visibleData [(0, 1, 0), (10, 0, 2), (20, 3, 4)] 10)[1]? = some (10, 0, 2) ∧
    render_timeline_ascii [(0, 1, 0), (10, 0, 2), (20, 3, 4)] 10 2 =
      ljust (String.mk (sLineOf (visibleData [(0, 1, 0), (10, 0, 2), (20, 3, 4)] 10)
          (maxTotal (visibleData [(0, 1, 0), (10, 0, 2), (20, 3, 4)] 10)))) (10 - 1)
        ++ "\n"
        ++ ljust (String.mk (fLineOf (visibleData [(0, 1, 0), (10, 0, 2), (20, 3, 4)] 10))) (10 - 1) ∧
    (fLineOf (visibleData [(0, 1, 0), (10, 0, 2), (20, 3, 4)] 10))[1]? = some 'F' :=
  ⟨by decide, by decide, by decide,
   (C9_ascii_markers [(0, 1, 0), (10, 0, 2), (20, 3, 4)] 10 2 1 10 0 2
     (by decide) (by decide) (by decide)).1,
   ((C9_ascii_markers [(0, 1, 0), (10, 0, 2), (20, 3, 4)] 10 2 1 10 0 2
     (by decide) (by decide) (by decide)).2.2.1 (by decide)).2⟩
